import Mathlib

/-
Verification of the OPML-driven RSS poller (`ai_assistant/commands/opml.py`).

The embedding models the dynamically-typed values produced by `xmltodict.parse`
as a small inductive type `PyVal` (strings, dicts, lists), Python exceptions as
`PyExc`, and the fallible subscript/iteration operations as `Except`-valued
functions.  `fetch_opml`, `fetch_rss`, `fetch_all_rss` and the round driver
`async_fetch` are translated from the source; the per-URL fetch is modelled as
a trace of observable events (request issued, log line, sleep), and the
semaphore-bounded fan-out and the round loop as small-step transition systems.
-/

/-- A Python value as produced by `xmltodict.parse`: a string, a dict with
string keys (association list, insertion-ordered), or a list. -/
inductive PyVal where
  | str : String → PyVal
  | dict : List (String × PyVal) → PyVal
  | list : List PyVal → PyVal

/-- The Python exceptions that the OPML module can raise or catch. -/
inductive PyExc where
  | keyError : String → PyExc
  | typeError : String → PyExc
  | valueError : String → PyExc
  deriving DecidableEq

/-- Python subscripting `v[k]` with a string key: dict lookup raising
`KeyError` when the key is absent; subscripting a `str` or a `list` with a
string key raises `TypeError`. -/
def getItem : PyVal → String → Except PyExc PyVal
  | .dict entries, k =>
    match entries.find? (fun p => p.1 = k) with
    | some p => .ok p.2
    | none => .error (.keyError k)
  | .str _, _ => .error (.typeError "string indices must be integers")
  | .list _, _ => .error (.typeError "list indices must be integers, not str")

/-- Python iteration `for x in v`: a list yields its items, a dict yields its
keys (as strings), a string yields its characters (as 1-character strings). -/
def iterElems : PyVal → List PyVal
  | .list items => items
  | .dict entries => entries.map (fun p => PyVal.str p.1)
  | .str s => s.toList.map (fun c => PyVal.str (String.singleton c))

/-- The inner loop `for item in line["outline"]: url = item["@xmlUrl"];
urllist.append(url)` of `fetch_opml` (list-shaped group): collects the
`@xmlUrl` attribute of each child, in order; the first missing or
ill-typed subscript aborts with the exception. -/
def extractUrls : List PyVal → Except PyExc (List PyVal)
  | [] => .ok []
  | item :: rest =>
    match getItem item "@xmlUrl" with
    | .error e => .error e
    | .ok url =>
      match extractUrls rest with
      | .error e => .error e
      | .ok urls => .ok (url :: urls)

/-- One iteration of the `for line in outline` loop of `fetch_opml`:
`line["outline"]` is inspected; a list contributes one URL per child, a dict
(single-subscription group) contributes its own `@xmlUrl`, anything else is
logged as a format anomaly (`logger.error`) and skipped.  Returns the
contributed URLs together with the lines logged as anomalies. -/
def processLine (line : PyVal) : Except PyExc (List PyVal × List PyVal) :=
  match getItem line "outline" with
  | .error e => .error e
  | .ok lo =>
    match lo with
    | .list items =>
      match extractUrls items with
      | .error e => .error e
      | .ok urls => .ok (urls, [])
    | .dict _ =>
      match getItem lo "@xmlUrl" with
      | .error e => .error e
      | .ok url => .ok ([url], [])
    | .str _ => .ok ([], [line])

/-- The whole `for line in outline` loop of `fetch_opml`, accumulating the
URL list and the anomaly log in document order. -/
def processLines : List PyVal → Except PyExc (List PyVal × List PyVal)
  | [] => .ok ([], [])
  | line :: rest =>
    match processLine line with
    | .error e => .error e
    | .ok (us, as) =>
      match processLines rest with
      | .error e => .error e
      | .ok (us2, as2) => .ok (us ++ us2, as ++ as2)

/-- The lookup `body["opml"]["body"]["outline"]` at the start of the
`try` block of `fetch_opml`. -/
def outlineOf (doc : PyVal) : Except PyExc PyVal :=
  match getItem doc "opml" with
  | .error e => .error e
  | .ok opml =>
    match getItem opml "body" with
    | .error e => .error e
    | .ok b => getItem b "outline"

/-- The body of the `try` block of `fetch_opml`: the outline lookup followed
by the loop over its elements (Python iteration of the outline value). -/
def fetch_opml_run (doc : PyVal) : Except PyExc (List PyVal × List PyVal) :=
  match outlineOf doc with
  | .error e => .error e
  | .ok outline => processLines (iterElems outline)

/-- `fetch_opml` on an already-parsed document: `except KeyError: raise
ValueError("OPML 文件格式错误")` converts exactly `KeyError` into the format
`ValueError`; every other exception (e.g. `TypeError`) propagates unchanged.
Returns the collected URL list. -/
def fetch_opml (doc : PyVal) : Except PyExc (List PyVal) :=
  match fetch_opml_run doc with
  | .error (.keyError _) => .error (.valueError "OPML 文件格式错误")
  | .error e => .error e
  | .ok (urls, _) => .ok urls

/-- `fetch_opml` together with its anomaly log (the lines reported by
`logger.error(f"opml file format error ...")`). -/
def fetch_opml_logged (doc : PyVal) : Except PyExc (List PyVal × List PyVal) :=
  match fetch_opml_run doc with
  | .error (.keyError _) => .error (.valueError "OPML 文件格式错误")
  | .error e => .error e
  | .ok r => .ok r

/-- The document of claim C5: a group with two children followed by a group
with a single child (represented as a single mapping, as `xmltodict` does). -/
def doc_C5 : PyVal :=
  .dict [("opml", .dict [("body", .dict [("outline", .list [
    .dict [("@text", .str "group1"), ("outline", .list [
      .dict [("@xmlUrl", .str "u1")],
      .dict [("@xmlUrl", .str "u2")]])],
    .dict [("@text", .str "group2"),
           ("outline", .dict [("@xmlUrl", .str "u3")])]])])])]

/-- An observable event of the per-URL fetch coroutine: the HTTP request being
issued, an `asyncio.sleep` of a given number of seconds, and the log lines
(`logError b` records whether the call passed `exc_info=True`, i.e. stack
detail). -/
inductive Event where
  | request : PyVal → Event
  | sleep : Nat → Event
  | logDebug : Event
  | logInfo : Event
  | logWarning : Event
  | logError : Bool → Event

/-- The observable result of `await client.get(url, ...)` as seen by
`fetch_rss`: a response with a status code and a body (`body = some v` when
`resp.json()` parses to the value `v`, `none` when it raises
`json.JSONDecodeError`). -/
structure Response where
  status : Nat
  body : Option PyVal

/-- `client.get` either returns a response or raises (network error,
timeout, ...). -/
inductive GetOutcome where
  | ok : Response → GetOutcome
  | exn : GetOutcome

/-- The body of `fetch_rss` (inside the semaphore slot; the semaphore itself
is modelled separately as a transition system), as the trace of its events:
  * `client.get` raising: caught by `except Exception`, which calls
    `logging.error(..., exc_info=True)` and sleeps `wait_time * 3`;
  * status 502/530 and 403/401: `logger.debug` then sleep `wait_time * 2`;
  * any other status outside 200..299: `resp.raise_for_status()` raises
    `HTTPStatusError`, caught by the same `except Exception` handler;
  * 2xx with a body that is not valid JSON: `resp.json()` raises
    `json.JSONDecodeError`, caught by the dedicated inner handler:
    `logger.warning` (no stack detail) then sleep `wait_time * 3`, return;
  * 2xx valid JSON: `data["title"]` and `data["home_page_url"]` are
    subscripted (a `KeyError`/`TypeError` there is caught by the outer
    `except Exception` handler), then `logger.info` and sleep `wait_time`. -/
def fetch_rss (url : PyVal) (out : GetOutcome) (wait_time : Nat := 3) :
    List Event :=
  match out with
  | .exn => [.request url, .logError true, .sleep (wait_time * 3)]
  | .ok resp =>
    if resp.status = 502 ∨ resp.status = 530 then
      [.request url, .logDebug, .sleep (wait_time * 2)]
    else if resp.status = 403 ∨ resp.status = 401 then
      [.request url, .logDebug, .sleep (wait_time * 2)]
    else if resp.status < 200 ∨ 300 ≤ resp.status then
      [.request url, .logError true, .sleep (wait_time * 3)]
    else
      match resp.body with
      | none => [.request url, .logWarning, .sleep (wait_time * 3)]
      | some data =>
        match getItem data "title" with
        | .error _ => [.request url, .logError true, .sleep (wait_time * 3)]
        | .ok _ =>
          match getItem data "home_page_url" with
          | .error _ => [.request url, .logError true, .sleep (wait_time * 3)]
          | .ok _ => [.request url, .logInfo, .sleep wait_time]

/-- `fetch_all_rss`: one `fetch_rss` task per URL-list entry, all awaited via
`asyncio.gather`.  The trace lists each task's events in fan-out order (the
concurrent interleaving is irrelevant to the per-task claims; the semaphore
bound is modelled separately). `fetch_all_rss` calls `fetch_rss` with its
default `wait_time` of 3, kept here as a parameter. -/
def fetch_all_rss_events (urls : List PyVal) (oracle : PyVal → GetOutcome)
    (wait_time : Nat := 3) : List Event :=
  match urls with
  | [] => []
  | u :: rest =>
    fetch_rss u (oracle u) wait_time ++ fetch_all_rss_events rest oracle wait_time

/-- The URLs for which a request event occurs in a trace, in order. -/
def requestedUrls : List Event → List PyVal
  | [] => []
  | .request u :: es => u :: requestedUrls es
  | .sleep _ :: es => requestedUrls es
  | .logDebug :: es => requestedUrls es
  | .logInfo :: es => requestedUrls es
  | .logWarning :: es => requestedUrls es
  | .logError _ :: es => requestedUrls es

/-- Every code path of `fetch_rss` issues exactly one request, for its own
URL. -/
theorem requestedUrls_fetch_rss (u : PyVal) (out : GetOutcome) (w : Nat) :
    requestedUrls (fetch_rss u out w) = [u] := by
  cases out with
  | exn => rfl
  | ok resp =>
    simp only [fetch_rss]
    split
    · rfl
    · split
      · rfl
      · split
        · rfl
        · cases resp.body with
          | none => rfl
          | some data =>
            simp only
            split
            · rfl
            · split
              · rfl
              · rfl

/-- Every code path of `fetch_rss` ends in a sleep: the coroutine always
completes normally (no exception propagates to `asyncio.gather`). -/
theorem fetch_rss_ends_in_sleep (u : PyVal) (out : GetOutcome) (w : Nat) :
    ∃ k, (fetch_rss u out w).getLast? = some (.sleep k) := by
  cases out with
  | exn => exact ⟨w * 3, rfl⟩
  | ok resp =>
    simp only [fetch_rss]
    split
    · exact ⟨w * 2, rfl⟩
    · split
      · exact ⟨w * 2, rfl⟩
      · split
        · exact ⟨w * 3, rfl⟩
        · cases resp.body with
          | none => exact ⟨w * 3, rfl⟩
          | some data =>
            simp only
            split
            · exact ⟨w * 3, rfl⟩
            · split
              · exact ⟨w * 3, rfl⟩
              · exact ⟨w, rfl⟩

/-- The round fan-out attempts each URL-list entry exactly once, in order,
whatever the per-URL outcomes are. -/
theorem requestedUrls_fetch_all_rss (urls : List PyVal)
    (oracle : PyVal → GetOutcome) (w : Nat) :
    requestedUrls (fetch_all_rss_events urls oracle w) = urls := by
  induction urls with
  | nil => rfl
  | cons u rest ih =>
    have h1 := requestedUrls_fetch_rss u (oracle u) w
    have hsplit :
        requestedUrls (fetch_rss u (oracle u) w ++ fetch_all_rss_events rest oracle w)
          = requestedUrls (fetch_rss u (oracle u) w)
              ++ requestedUrls (fetch_all_rss_events rest oracle w) := by
      generalize fetch_rss u (oracle u) w = t1
      induction t1 with
      | nil => rfl
      | cons e es ihe => cases e <;> simp [requestedUrls, ihe]
    simp [fetch_all_rss_events, hsplit, h1, ih]

/-- C5: for a subscription-list document containing a 2-child group followed
by a 1-child group (single mapping), `fetch_opml` returns exactly 3 URLs, in
group-then-child document order. -/
theorem claim_C5_two_then_one_group :
    fetch_opml doc_C5 = .ok [.str "u1", .str "u2", .str "u3"] := rfl

/-- C6: for a response with status in \x7b502, 530\x7d or \x7b401, 403\x7d,
`fetch_rss` sleeps exactly 2× the base wait (default base wait 3, so 6
seconds at the default), completes normally, and the fan-out attempts each
URL exactly once per round regardless of outcome. -/
theorem claim_C6_special_status_cooldown (u : PyVal) (w : Nat) (resp : Response)
    (h : resp.status = 502 ∨ resp.status = 530 ∨ resp.status = 401 ∨
      resp.status = 403) :
    fetch_rss u (.ok resp) w = [.request u, .logDebug, .sleep (w * 2)]
    ∧ fetch_rss u (.ok resp) = [.request u, .logDebug, .sleep 6]
    ∧ (∀ (urls : List PyVal) (oracle : PyVal → GetOutcome),
        requestedUrls (fetch_all_rss_events urls oracle w) = urls) := by
  refine ⟨?_, ?_, fun urls oracle => requestedUrls_fetch_all_rss urls oracle w⟩ <;>
    rcases h with h | h | h | h <;> simp [fetch_rss, h]

/-- Witness for C6 at a concrete 502 response. -/
theorem claim_C6_witness :
    fetch_rss (.str "x") (.ok ⟨502, none⟩) 3
      = [.request (.str "x"), .logDebug, .sleep 6] := by
  exact (claim_C6_special_status_cooldown (.str "x") 3 ⟨502, none⟩
    (Or.inl rfl)).1

/-- C2 counterexample: a 2xx response whose body fails JSON parsing is
handled by the dedicated inner handler, which logs a *warning without stack
detail* and sleeps 3× the base wait — no stack-detail error log occurs, so
the claim that every parse exception is "logged with stack detail" is false
at this input. -/
theorem claim_C2_counterexample :
    fetch_rss (.str "u") (.ok ⟨200, none⟩) 3
        = [.request (.str "u"), .logWarning, .sleep 9]
      ∧ ∀ b, Event.logError b ∉ fetch_rss (.str "u") (.ok ⟨200, none⟩) 3 := by
  constructor
  · rfl
  · intro b h
    rw [show fetch_rss (.str "u") (.ok ⟨200, none⟩) 3
        = [.request (.str "u"), .logWarning, .sleep 9] from rfl] at h
    simp at h

/-- C2 (amended): every exception is caught and none propagates out of
`fetch_rss`.  Exceptions from `client.get` (network, timeout) and from
`raise_for_status` (non-2xx status outside the four special-cased codes) are
logged with stack detail and followed by a 3× base-wait sleep; the JSON
parse failure of a 2xx body is caught by a dedicated handler that logs a
warning (without stack detail) and sleeps 3× the base wait.  Every path ends
in a sleep and completes normally, and the round fan-out still attempts
every sibling URL exactly once whatever the outcomes are. -/
theorem claim_C2_amended_exception_isolation (u : PyVal) (w : Nat)
    (resp : Response) :
    fetch_rss u .exn w = [.request u, .logError true, .sleep (w * 3)]
    ∧ (¬(resp.status = 502 ∨ resp.status = 530) →
        ¬(resp.status = 403 ∨ resp.status = 401) →
        (resp.status < 200 ∨ 300 ≤ resp.status) →
        fetch_rss u (.ok resp) w = [.request u, .logError true, .sleep (w * 3)])
    ∧ (200 ≤ resp.status → resp.status < 300 → resp.body = none →
        fetch_rss u (.ok resp) w = [.request u, .logWarning, .sleep (w * 3)])
    ∧ (∀ out, ∃ k, (fetch_rss u out w).getLast? = some (.sleep k))
    ∧ (∀ (urls : List PyVal) (oracle : PyVal → GetOutcome),
        requestedUrls (fetch_all_rss_events urls oracle w) = urls) := by
  refine ⟨rfl, ?_, ?_, fun out => fetch_rss_ends_in_sleep u out w,
    fun urls oracle => requestedUrls_fetch_all_rss urls oracle w⟩
  · intro h1 h2 h3
    simp only [fetch_rss]
    rw [if_neg h1, if_neg h2, if_pos h3]
  · intro h1 h2 hb
    have n1 : ¬(resp.status = 502 ∨ resp.status = 530) := by omega
    have n2 : ¬(resp.status = 403 ∨ resp.status = 401) := by omega
    have n3 : ¬(resp.status < 200 ∨ 300 ≤ resp.status) := by omega
    simp only [fetch_rss]
    rw [if_neg n1, if_neg n2, if_neg n3, hb]

/-- Witness for C2 (amended) at a concrete 500 response. -/
theorem claim_C2_amended_witness :
    fetch_rss (.str "a") (.ok ⟨500, none⟩) 3
      = [.request (.str "a"), .logError true, .sleep 9] := by
  exact (claim_C2_amended_exception_isolation (.str "a") 3 ⟨500, none⟩).2.1
    (by decide) (by decide) (by decide)

/-- C7 counterexample: a 2xx response whose body is valid JSON but lacks the
`title` field (here the empty object) does *not* log success and sleep 1×:
the `KeyError` from `data["title"]` is caught by the generic handler, which
logs an error with stack detail and sleeps 3× the base wait. -/
theorem claim_C7_counterexample :
    fetch_rss (.str "u") (.ok ⟨200, some (.dict [])⟩) 3
        = [.request (.str "u"), .logError true, .sleep 9]
    ∧ Event.logInfo ∉ fetch_rss (.str "u") (.ok ⟨200, some (.dict [])⟩) 3
    ∧ Event.sleep 3 ∉ fetch_rss (.str "u") (.ok ⟨200, some (.dict [])⟩) 3 := by
  refine ⟨rfl, ?_, ?_⟩ <;>
    · intro h
      rw [show fetch_rss (.str "u") (.ok ⟨200, some (.dict [])⟩) 3
          = [.request (.str "u"), .logError true, .sleep 9] from rfl] at h
      simp at h

/-- C7 (amended): for a 2xx response, a non-JSON body yields a warning log
and a 3× base-wait sleep without crashing; a valid JSON body containing both
`title` and `home_page_url` yields a success log and a 1× base-wait sleep;
a valid JSON body on which either subscript raises is handled by the generic
exception handler (stack-detail error log, 3× base-wait sleep). -/
theorem claim_C7_amended_2xx_body_handling (u : PyVal) (w : Nat)
    (resp : Response) (h1 : 200 ≤ resp.status) (h2 : resp.status < 300) :
    (resp.body = none →
      fetch_rss u (.ok resp) w = [.request u, .logWarning, .sleep (w * 3)])
    ∧ (∀ data t hp, resp.body = some data → getItem data "title" = .ok t →
        getItem data "home_page_url" = .ok hp →
        fetch_rss u (.ok resp) w = [.request u, .logInfo, .sleep w])
    ∧ (∀ data e, resp.body = some data → getItem data "title" = .error e →
        fetch_rss u (.ok resp) w = [.request u, .logError true, .sleep (w * 3)])
    ∧ (∀ data t e, resp.body = some data → getItem data "title" = .ok t →
        getItem data "home_page_url" = .error e →
        fetch_rss u (.ok resp) w =
          [.request u, .logError true, .sleep (w * 3)]) := by
  have n1 : ¬(resp.status = 502 ∨ resp.status = 530) := by omega
  have n2 : ¬(resp.status = 403 ∨ resp.status = 401) := by omega
  have n3 : ¬(resp.status < 200 ∨ 300 ≤ resp.status) := by omega
  refine ⟨?_, ?_, ?_, ?_⟩
  · intro hb
    simp only [fetch_rss]
    rw [if_neg n1, if_neg n2, if_neg n3, hb]
  · intro data t hp hb ht hh
    simp only [fetch_rss]
    rw [if_neg n1, if_neg n2, if_neg n3, hb]
    simp only [ht, hh]
  · intro data e hb ht
    simp only [fetch_rss]
    rw [if_neg n1, if_neg n2, if_neg n3, hb]
    simp only [ht]
  · intro data t e hb ht hh
    simp only [fetch_rss]
    rw [if_neg n1, if_neg n2, if_neg n3, hb]
    simp only [ht, hh]

/-- Witness for C7 (amended) at a concrete 200 response holding both
fields. -/
theorem claim_C7_amended_witness :
    fetch_rss (.str "u")
        (.ok ⟨200, some (.dict [("title", .str "t"), ("home_page_url", .str "h")])⟩) 3
      = [.request (.str "u"), .logInfo, .sleep 3] := by
  exact (claim_C7_amended_2xx_body_handling (.str "u") 3
      ⟨200, some (.dict [("title", .str "t"), ("home_page_url", .str "h")])⟩
      (by decide) (by decide)).2.1
    (.dict [("title", .str "t"), ("home_page_url", .str "h")])
    (.str "t") (.str "h") rfl rfl rfl

/-- The first round of `async_fetch`: `fetch_opml` runs before the fetch
loop; only on success is the (shuffled) URL list fanned out.  A parse
exception propagates and no request is ever issued. -/
def async_fetch_first_round (doc : PyVal) (shuffle : List PyVal → List PyVal)
    (oracle : PyVal → GetOutcome) : Except PyExc (List Event) :=
  match fetch_opml doc with
  | .error e => .error e
  | .ok urls => .ok (fetch_all_rss_events (shuffle urls) oracle)

/-- C3: when the top-level `opml`/`body`/`outline` lookup fails with a
`KeyError`, `fetch_opml` fails with the format `ValueError` (returning no
partial or empty list), and `async_fetch` propagates that failure with no
request event ever issued: the failure precedes all fetching. -/
theorem claim_C3_missing_structure_fatal (doc : PyVal) (k : String)
    (h : outlineOf doc = .error (.keyError k)) :
    fetch_opml doc = .error (.valueError "OPML 文件格式错误")
    ∧ ∀ (shuffle : List PyVal → List PyVal) (oracle : PyVal → GetOutcome),
        async_fetch_first_round doc shuffle oracle
          = .error (.valueError "OPML 文件格式错误") := by
  have h1 : fetch_opml doc = .error (.valueError "OPML 文件格式错误") := by
    simp [fetch_opml, fetch_opml_run, h]
  exact ⟨h1, fun shuffle oracle => by simp [async_fetch_first_round, h1]⟩

/-- Witness for C3 at the empty document (no `opml` key at all). -/
theorem claim_C3_witness :
    fetch_opml (.dict []) = .error (.valueError "OPML 文件格式错误") :=
  (claim_C3_missing_structure_fatal (.dict []) "opml" rfl).1

/-- The document of claim C10: the top-level outline holds exactly one
group, so the parsed outline value is a single mapping rather than a list
of groups. -/
def doc_C10 : PyVal :=
  .dict [("opml", .dict [("body", .dict [("outline",
    .dict [("@text", .str "group"),
           ("outline", .dict [("@xmlUrl", .str "u")])])])])]

/-- C10: on a document whose outline is a single mapping, `for line in
outline` iterates the mapping's string keys, and subscripting a string with
`"outline"` raises a `TypeError`, which `except KeyError` does not convert:
the call fails with a `TypeError`, not the documented format `ValueError`. -/
theorem claim_C10_single_group_type_error :
    fetch_opml doc_C10 = .error (.typeError "string indices must be integers")
    ∧ fetch_opml doc_C10 ≠ .error (.valueError "OPML 文件格式错误") := by
  refine ⟨rfl, ?_⟩
  intro h
  rw [show fetch_opml doc_C10
      = .error (.typeError "string indices must be integers") from rfl] at h
  simp at h

/-- An OPML document whose top-level outline is the given list of groups. -/
def mkOpmlDoc (lines : List PyVal) : PyVal :=
  .dict [("opml", .dict [("body", .dict [("outline", .list lines)])])]

/-- The loop of `fetch_opml` processes a concatenation of groups as the two
halves in sequence, concatenating URL lists and anomaly logs; the first
exception aborts. -/
theorem processLines_append (l1 l2 : List PyVal) :
    processLines (l1 ++ l2) =
      match processLines l1, processLines l2 with
      | .error e, _ => .error e
      | .ok _, .error e => .error e
      | .ok (us1, as1), .ok (us2, as2) => .ok (us1 ++ us2, as1 ++ as2) := by
  induction l1 with
  | nil =>
    simp only [List.nil_append, processLines]
    cases h2 : processLines l2 with
    | error e => rfl
    | ok p => cases p with | mk us2 as2 => simp
  | cons line rest ih =>
    cases hpl : processLine line with
    | error e => simp [processLines, hpl]
    | ok p =>
      cases p with
      | mk us as =>
        cases h1 : processLines rest with
        | error e => simp [processLines, hpl, ih, h1]
        | ok p1 =>
          cases p1 with
          | mk us1 as1 =>
            cases h2 : processLines l2 with
            | error e => simp [processLines, hpl, ih, h1, h2]
            | ok p2 =>
              cases p2 with
              | mk us2 as2 =>
                simp [processLines, hpl, ih, h1, h2, List.append_assoc]

/-- The document of the C4 counterexample: a well-formed 1-child group
followed by a group with no `outline` child at all (its shape matches
neither the list case nor the single-mapping case). -/
def doc_C4 : PyVal :=
  mkOpmlDoc [
    .dict [("@text", .str "good"), ("outline", .dict [("@xmlUrl", .str "u1")])],
    .dict [("@text", .str "bad")]]

/-- C4 counterexample: a group with no `outline` child matches neither the
multi-child nor the single-child case, yet it is not skipped: the `KeyError`
from `line["outline"]` escapes the loop and is converted to the fatal format
`ValueError`, so the well-formed group's URL is not returned. -/
theorem claim_C4_counterexample :
    fetch_opml doc_C4 = .error (.valueError "OPML 文件格式错误")
    ∧ fetch_opml doc_C4 ≠ .ok [.str "u1"] := by
  refine ⟨rfl, ?_⟩
  intro h
  rw [show fetch_opml doc_C4
      = .error (.valueError "OPML 文件格式错误") from rfl] at h
  simp at h

/-- C4 (amended): a group whose `outline` child is *present* but neither a
list nor a mapping (e.g. a plain string) is skipped and logged, not fatal:
inserting such a group anywhere leaves `fetch_opml`'s result unchanged (in
particular the URLs of all well-formed groups are still returned), and when
the call succeeds the anomalous group appears in the anomaly log.  (A group
with no `outline` child at all is instead fatal, per the counterexample.) -/
theorem claim_C4_amended_anomalous_group_skipped (pre post : List PyVal)
    (bad : PyVal) (s : String) (hbad : getItem bad "outline" = .ok (.str s)) :
    fetch_opml (mkOpmlDoc (pre ++ bad :: post))
      = fetch_opml (mkOpmlDoc (pre ++ post))
    ∧ ∀ us as,
        fetch_opml_logged (mkOpmlDoc (pre ++ bad :: post)) = .ok (us, as) →
        bad ∈ as := by
  have hskip : processLine bad = .ok ([], [bad]) := by
    simp [processLine, hbad]
  have hmid : processLines (bad :: post) =
      match processLines post with
      | .error e => .error e
      | .ok (us2, as2) => .ok (us2, bad :: as2) := by
    simp only [processLines, hskip]
    cases hp : processLines post with
    | error e => rfl
    | ok p => cases p with | mk us2 as2 => simp
  have hrun : fetch_opml_run (mkOpmlDoc (pre ++ bad :: post)) =
      match processLines pre, processLines post with
      | .error e, _ => .error e
      | .ok _, .error e => .error e
      | .ok (us1, as1), .ok (us2, as2) => .ok (us1 ++ us2, as1 ++ bad :: as2) := by
    show processLines (pre ++ bad :: post) = _
    rw [processLines_append pre (bad :: post)]
    cases h1 : processLines pre with
    | error e => rfl
    | ok p1 =>
      cases p1 with
      | mk us1 as1 =>
        rw [hmid]
        cases h2 : processLines post with
        | error e => rfl
        | ok p2 => cases p2 with | mk us2 as2 => rfl
  have hrun2 : fetch_opml_run (mkOpmlDoc (pre ++ post)) =
      match processLines pre, processLines post with
      | .error e, _ => .error e
      | .ok _, .error e => .error e
      | .ok (us1, as1), .ok (us2, as2) => .ok (us1 ++ us2, as1 ++ as2) := by
    show processLines (pre ++ post) = _
    exact processLines_append pre post
  constructor
  · show (match fetch_opml_run (mkOpmlDoc (pre ++ bad :: post)) with
      | .error (.keyError _) =>
        (Except.error (PyExc.valueError "OPML 文件格式错误") :
          Except PyExc (List PyVal))
      | .error e => Except.error e
      | .ok (urls, _) => Except.ok urls) = _
    rw [hrun]
    show _ = (match fetch_opml_run (mkOpmlDoc (pre ++ post)) with
      | .error (.keyError _) =>
        (Except.error (PyExc.valueError "OPML 文件格式错误") :
          Except PyExc (List PyVal))
      | .error e => Except.error e
      | .ok (urls, _) => Except.ok urls)
    rw [hrun2]
    cases h1 : processLines pre with
    | error e => rfl
    | ok p1 =>
      cases p1 with
      | mk us1 as1 =>
        cases h2 : processLines post with
        | error e => rfl
        | ok p2 => cases p2 with | mk us2 as2 => rfl
  · intro us as h
    rw [show fetch_opml_logged (mkOpmlDoc (pre ++ bad :: post)) =
        (match fetch_opml_run (mkOpmlDoc (pre ++ bad :: post)) with
        | .error (.keyError _) =>
          (Except.error (PyExc.valueError "OPML 文件格式错误") :
            Except PyExc (List PyVal × List PyVal))
        | .error e => Except.error e
        | .ok r => Except.ok r) from rfl, hrun] at h
    cases h1 : processLines pre with
    | error e => rw [h1] at h; cases e <;> simp at h
    | ok p1 =>
      cases p1 with
      | mk us1 as1 =>
        rw [h1] at h
        cases h2 : processLines post with
        | error e => rw [h2] at h; cases e <;> simp at h
        | ok p2 =>
          cases p2 with
          | mk us2 as2 =>
            rw [h2] at h
            simp only [Except.ok.injEq, Prod.mk.injEq] at h
            rw [← h.2]
            exact List.mem_append_right as1 (List.mem_cons_self bad as2)

/-- Witness for C4 (amended): inserting a string-shaped group after a good
group leaves the result unchanged and logs the anomaly. -/
theorem claim_C4_amended_witness :
    fetch_opml (mkOpmlDoc
        [.dict [("@text", .str "g"), ("outline", .dict [("@xmlUrl", .str "u1")])],
         .dict [("@text", .str "odd"), ("outline", .str "x")]])
      = fetch_opml (mkOpmlDoc
        [.dict [("@text", .str "g"), ("outline", .dict [("@xmlUrl", .str "u1")])]])
    ∧ PyVal.dict [("@text", .str "odd"), ("outline", .str "x")] ∈
        [PyVal.dict [("@text", .str "odd"), ("outline", .str "x")]] := by
  have h := claim_C4_amended_anomalous_group_skipped
    [.dict [("@text", .str "g"), ("outline", .dict [("@xmlUrl", .str "u1")])]]
    [] (.dict [("@text", .str "odd"), ("outline", .str "x")]) "x" rfl
  exact ⟨h.1, h.2 [PyVal.str "u1"]
    [PyVal.dict [("@text", .str "odd"), ("outline", .str "x")]] rfl⟩

/-- The document of the C9 counterexample: two groups subscribing to the
same feed URL. -/
def doc_C9 : PyVal :=
  mkOpmlDoc [
    .dict [("@text", .str "g1"), ("outline", .dict [("@xmlUrl", .str "u")])],
    .dict [("@text", .str "g2"), ("outline", .dict [("@xmlUrl", .str "u")])]]

/-- C9 counterexample: the Loader performs no deduplication, so a document
listing the same URL in two groups produces a round URL list in which that
URL appears twice, and the round's fan-out issues two requests for it. -/
theorem claim_C9_counterexample :
    fetch_opml doc_C9 = .ok [.str "u", .str "u"]
    ∧ ¬ ([PyVal.str "u", PyVal.str "u"].Nodup)
    ∧ requestedUrls
        (fetch_all_rss_events [.str "u", .str "u"] (fun _ => .exn) 3)
      = [.str "u", .str "u"] := by
  refine ⟨rfl, ?_, rfl⟩
  intro h
  exact (List.nodup_cons.mp h).1 (List.mem_singleton.mpr rfl)

/-- C9 (amended): within a round, each entry of the Loader's URL list is
fetched exactly once (the requested URLs are exactly the shuffled list, a
permutation of the Loader output), but uniqueness is not enforced: it holds
exactly when the Loader output itself contains no duplicate URLs. -/
theorem claim_C9_amended_once_per_entry (urls shuffled : List PyVal)
    (h : shuffled.Perm urls) (oracle : PyVal → GetOutcome) (w : Nat) :
    requestedUrls (fetch_all_rss_events shuffled oracle w) = shuffled
    ∧ (requestedUrls (fetch_all_rss_events shuffled oracle w)).Perm urls
    ∧ (urls.Nodup →
        (requestedUrls (fetch_all_rss_events shuffled oracle w)).Nodup) := by
  have h1 := requestedUrls_fetch_all_rss shuffled oracle w
  refine ⟨h1, ?_, ?_⟩
  · rw [h1]; exact h
  · intro hn; rw [h1]; exact h.symm.nodup hn

/-- Witness for C9 (amended) at a concrete 2-URL round with the identity
shuffle. -/
theorem claim_C9_amended_witness :
    requestedUrls
        (fetch_all_rss_events [PyVal.str "a", PyVal.str "b"] (fun _ => .exn) 3)
      = [PyVal.str "a", PyVal.str "b"] := by
  exact (claim_C9_amended_once_per_entry [PyVal.str "a", PyVal.str "b"]
    [PyVal.str "a", PyVal.str "b"] (List.Perm.refl _) (fun _ => .exn) 3).1

/-- The phase of one `fetch_rss` task with respect to the semaphore of
`fetch_all_rss`: not yet admitted (suspended in `async with semaphore`),
holding a slot (its request and cooldown run inside the `async with` block),
or finished (slot released). -/
inductive Phase where
  | waiting : Phase
  | holding : Phase
  | done : Phase
  deriving DecidableEq

/-- The number of tasks currently holding a semaphore slot (equivalently,
the number of requests that may be in flight). -/
def holdingCount : List Phase → Nat
  | [] => 0
  | .holding :: ts => holdingCount ts + 1
  | .waiting :: ts => holdingCount ts
  | .done :: ts => holdingCount ts

/-- One scheduler step of the round: `acquire` admits a waiting task when a
slot is free (`asyncio.Semaphore(cap)` blocks otherwise — the enabling
condition `holdingCount ts < cap`), `release` completes a task holding a
slot (leaving the `async with` block releases it).  The whole body of
`fetch_rss` — issuing the request included — runs in the `holding` phase. -/
inductive SemStep (cap : Nat) : List Phase → List Phase → Prop
  | acquire (ts : List Phase) (i : Nat) (h : ts.get? i = some .waiting)
      (hcap : holdingCount ts < cap) :
      SemStep cap ts (ts.set i .holding)
  | release (ts : List Phase) (i : Nat) (h : ts.get? i = some .holding) :
      SemStep cap ts (ts.set i .done)

/-- The states a round over `n` tasks can reach: `fetch_all_rss` launches
every task in the waiting state and the scheduler interleaves them. -/
def SemReachable (cap n : Nat) (ts : List Phase) : Prop :=
  Relation.ReflTransGen (SemStep cap) (List.replicate n .waiting) ts

theorem holdingCount_set_holding (ts : List Phase) (i : Nat)
    (h : ts.get? i = some .waiting) :
    holdingCount (ts.set i .holding) = holdingCount ts + 1 := by
  induction ts generalizing i with
  | nil => simp [List.get?] at h
  | cons t rest ih =>
    cases i with
    | zero =>
      simp only [List.get?] at h
      cases h1 : t <;> rw [h1] at h <;> simp at h
      simp [List.set, holdingCount, h1]
    | succ j =>
      simp only [List.get?] at h
      cases t <;> simp [List.set, holdingCount, ih j h]

theorem holdingCount_set_done (ts : List Phase) (i : Nat)
    (h : ts.get? i = some .holding) :
    holdingCount (ts.set i .done) + 1 = holdingCount ts := by
  induction ts generalizing i with
  | nil => simp [List.get?] at h
  | cons t rest ih =>
    cases i with
    | zero =>
      simp only [List.get?] at h
      cases h1 : t <;> rw [h1] at h <;> simp at h
      simp [List.set, holdingCount, h1]
    | succ j =>
      simp only [List.get?] at h
      cases t <;> simp [List.set, holdingCount, ← ih j h]

theorem holdingCount_replicate_waiting (n : Nat) :
    holdingCount (List.replicate n .waiting) = 0 := by
  induction n with
  | zero => rfl
  | succ m ih => simp [List.replicate, holdingCount, ih]

/-- C1: for every concurrency cap and URL count, in every state the round
can reach, at most `cap` tasks hold a semaphore slot — so at most `cap`
requests are ever concurrently in flight; in particular for `cap < n` where
tasks outnumber slots.  Each task issues its request only while holding a
slot acquired under the `holdingCount ts < cap` enabling condition. -/
theorem claim_C1_semaphore_bound (cap n : Nat) (hcn : cap < n)
    (ts : List Phase) (hr : SemReachable cap n ts) :
    holdingCount ts ≤ cap := by
  induction hr with
  | refl => rw [holdingCount_replicate_waiting]; exact Nat.zero_le cap
  | tail _ hstep ih =>
    cases hstep with
    | acquire i h hcap =>
      rw [holdingCount_set_holding _ i h]
      omega
    | release i h =>
      have := holdingCount_set_done _ i h
      omega

/-- Witness for C1: with cap 1 and 2 tasks, after admitting the first task
one slot is held, within the bound. -/
theorem claim_C1_witness :
    holdingCount [Phase.holding, Phase.waiting] ≤ 1 := by
  exact claim_C1_semaphore_bound 1 2 (by decide)
    [Phase.holding, Phase.waiting]
    (Relation.ReflTransGen.single
      (SemStep.acquire (List.replicate 2 .waiting) 0 rfl (by decide)))

/-- The state of the `while True` loop of `async_fetch`: the current URL
list (shuffled in place by `random.shuffle` before each round), the orders
already fetched (one entry per completed round), and whether the loop has
exited (`if not loop: break`). -/
structure DriverState where
  order : List PyVal
  history : List (List PyVal)
  finished : Bool

/-- `async_fetch` enters the loop with the Loader's URL list, no completed
round, and the loop not yet exited. -/
def initDriver (urls : List PyVal) : DriverState :=
  ⟨urls, [], false⟩

/-- One iteration of the `while True` body: only enabled while the loop has
not exited; it shuffles the current order in place (`shuffle k` is the
permutation drawn by `random.shuffle` before round `k`), runs one complete
round over the shuffled order (recorded in the history), and then exits
exactly when the loop flag is off.  Nothing else is carried to the next
iteration. -/
inductive DriverStep (loop : Bool) (shuffle : Nat → List PyVal → List PyVal) :
    DriverState → DriverState → Prop
  | round (s : DriverState) (h : s.finished = false) :
      DriverStep loop shuffle s
        ⟨shuffle s.history.length s.order,
         s.history ++ [shuffle s.history.length s.order], !loop⟩

/-- The loop states reachable from the start of `async_fetch`. -/
def DriverReachable (loop : Bool) (shuffle : Nat → List PyVal → List PyVal)
    (urls : List PyVal) (s : DriverState) : Prop :=
  Relation.ReflTransGen (DriverStep loop shuffle) (initDriver urls) s

theorem driver_once (shuffle : Nat → List PyVal → List PyVal)
    (urls : List PyVal) (s : DriverState)
    (hr : DriverReachable false shuffle urls s) :
    (s.finished = false ∧ s.history = [])
    ∨ (s.finished = true ∧ s.history.length = 1) := by
  induction hr with
  | refl => exact Or.inl ⟨rfl, rfl⟩
  | tail _ hstep ih =>
    cases hstep with
    | round h =>
      rcases ih with ⟨hf, hh⟩ | ⟨hf, hh⟩
      · right
        refine ⟨rfl, ?_⟩
        simp [hh]
      · rw [hf] at h
        cases h

theorem driver_loop_never_finishes (shuffle : Nat → List PyVal → List PyVal)
    (urls : List PyVal) (s : DriverState)
    (hr : DriverReachable true shuffle urls s) : s.finished = false := by
  induction hr with
  | refl => rfl
  | tail _ hstep ih => cases hstep with | round h => rfl

theorem driver_loop_unbounded (shuffle : Nat → List PyVal → List PyVal)
    (urls : List PyVal) (n : Nat) :
    ∃ s, DriverReachable true shuffle urls s ∧ s.history.length = n := by
  induction n with
  | zero => exact ⟨initDriver urls, Relation.ReflTransGen.refl, rfl⟩
  | succ m ih =>
    obtain ⟨s, hr, hlen⟩ := ih
    have hf : s.finished = false := driver_loop_never_finishes shuffle urls s hr
    refine ⟨⟨shuffle s.history.length s.order,
      s.history ++ [shuffle s.history.length s.order], !true⟩,
      Relation.ReflTransGen.tail hr (DriverStep.round s hf), ?_⟩
    simp [hlen]

theorem driver_rounds_perm (loop : Bool)
    (shuffle : Nat → List PyVal → List PyVal)
    (hperm : ∀ k l, (shuffle k l).Perm l) (urls : List PyVal)
    (s : DriverState) (hr : DriverReachable loop shuffle urls s) :
    s.order.Perm urls ∧ ∀ r ∈ s.history, r.Perm urls := by
  induction hr with
  | refl => exact ⟨List.Perm.refl urls, by intro r hmem; cases hmem⟩
  | tail _ hstep ih =>
    cases hstep with
    | round h =>
      refine ⟨(hperm _ _).trans ih.1, ?_⟩
      intro r hmem
      rcases List.mem_append.mp hmem with hold | hnew
      · exact ih.2 r hold
      · rw [List.mem_singleton.mp hnew]
        exact (hperm _ _).trans ih.1

/-- C8: with the loop flag off the driver runs exactly one complete round
(any reachable loop state has at most one completed round, and the exited
state has exactly one); with the flag on it never exits and reaches states
with arbitrarily many completed rounds; under a shuffle oracle that
permutes, every round is run over a fresh permutation of the Loader's URL
list (the only state carried between rounds); and a round over the empty
URL list produces no events at all — no fetch is attempted. -/
theorem claim_C8_round_driver (loop : Bool)
    (shuffle : Nat → List PyVal → List PyVal) (urls : List PyVal)
    (oracle : PyVal → GetOutcome) (w : Nat) :
    (loop = false → ∀ s, DriverReachable loop shuffle urls s →
      s.history.length ≤ 1 ∧ (s.finished = true → s.history.length = 1))
    ∧ (loop = true → ∀ s, DriverReachable loop shuffle urls s →
        s.finished = false)
    ∧ (loop = true → ∀ n, ∃ s, DriverReachable loop shuffle urls s ∧
        s.history.length = n)
    ∧ ((∀ k l, (shuffle k l).Perm l) →
        ∀ s, DriverReachable loop shuffle urls s →
          s.order.Perm urls ∧ ∀ r ∈ s.history, r.Perm urls)
    ∧ fetch_all_rss_events [] oracle w = [] := by
  refine ⟨?_, ?_, ?_, ?_, rfl⟩
  · rintro rfl s hr
    rcases driver_once shuffle urls s hr with ⟨hf, hh⟩ | ⟨hf, hh⟩
    · constructor
      · rw [hh]; exact Nat.zero_le 1
      · intro hcontra; rw [hf] at hcontra; cases hcontra
    · exact ⟨Nat.le_of_eq hh, fun _ => hh⟩
  · rintro rfl s hr
    exact driver_loop_never_finishes shuffle urls s hr
  · rintro rfl n
    exact driver_loop_unbounded shuffle urls n
  · intro hperm s hr
    exact driver_rounds_perm loop shuffle hperm urls s hr

/-- Witness for C8: one concrete round with the loop flag off reaches the
exited state with exactly one completed round; with the flag on the initial
state has not exited; a concrete empty round yields no events. -/
theorem claim_C8_witness :
    (⟨[PyVal.str "a"], [[PyVal.str "a"]], true⟩ : DriverState).history.length = 1
    ∧ (initDriver [PyVal.str "a"]).finished = false
    ∧ fetch_all_rss_events [] (fun _ => GetOutcome.exn) 3 = [] := by
  have h1 := claim_C8_round_driver false (fun _ l => l) [PyVal.str "a"]
    (fun _ => GetOutcome.exn) 3
  have h2 := claim_C8_round_driver true (fun _ l => l) [PyVal.str "a"]
    (fun _ => GetOutcome.exn) 3
  refine ⟨?_, ?_, h1.2.2.2.2⟩
  · exact (h1.1 rfl ⟨[PyVal.str "a"], [[PyVal.str "a"]], true⟩
      (Relation.ReflTransGen.single
        (DriverStep.round (initDriver [PyVal.str "a"]) rfl))).2 rfl
  · exact h2.2.1 rfl (initDriver [PyVal.str "a"]) Relation.ReflTransGen.refl
